import Mathlib

/-!
Shallow embedding of src/src/lib/debug.c (the fault and crash-diagnostics
subsystem: panic-action templating, permission checking, the fault handler
fr_fault, core-dump policy, the debugger-presence probe, the backtrace
registry and the talloc memory-report coordinator), together with theorems
settling the specification claims about it.

Strings are modelled as List Char, file descriptors and syscall results as
explicit parameters, and the filesystem seen by stat as a partial map from
paths to mode bits.
-/

/-- Leftmost occurrence of the two-character token formed by a percent sign
followed by the character t, as located by strstr in the substitution loops
of fr_fault_setup (token percent-e) and fr_fault (token percent-p).  Returns
the text strictly before the token and the text strictly after it, or none
when the token does not occur. -/
def splitAtTok (t : Char) : List Char → Option (List Char × List Char)
  | [] => none
  | [_] => none
  | a :: b :: rest =>
    if a = '%' ∧ b = t then some ([], rest)
    else (splitAtTok t (b :: rest)).map (fun pr => (a :: pr.1, pr.2))

theorem splitAtTok_append (t : Char) :
    ∀ p pre rest : List Char, splitAtTok t p = some (pre, rest) →
      p = pre ++ '%' :: t :: rest := by
  intro p
  induction p with
  | nil => intro pre rest h; simp [splitAtTok] at h
  | cons a tail ih =>
    cases tail with
    | nil => intro pre rest h; simp [splitAtTok] at h
    | cons b rest2 =>
      intro pre rest h
      simp only [splitAtTok] at h
      by_cases hab : a = '%' ∧ b = t
      · rw [if_pos hab] at h
        have hpr := Option.some.inj h
        have h1 : ([] : List Char) = pre := congrArg Prod.fst hpr
        have h2 : rest2 = rest := congrArg Prod.snd hpr
        obtain ⟨ha, hb⟩ := hab
        subst ha; subst hb; subst h1; subst h2
        rfl
      · rw [if_neg hab] at h
        cases hs : splitAtTok t (b :: rest2) with
        | none => rw [hs] at h; simp at h
        | some pr =>
          rw [hs] at h
          simp only [Option.map_some', Option.some.injEq] at h
          have hp := ih pr.1 pr.2 (by rw [hs])
          have h1 : a :: pr.1 = pre := congrArg Prod.fst h
          have h2 : pr.2 = rest := congrArg Prod.snd h
          subst h1; subst h2
          simpa using congrArg (a :: ·) hp

theorem splitAtTok_rest_lt (t : Char) {p pre rest : List Char}
    (h : splitAtTok t p = some (pre, rest)) : rest.length < p.length := by
  have hp := splitAtTok_append t p pre rest h
  subst hp
  simp [List.length_append]
  omega

/-- Specification-side description of the substitution loops (section 8 of
the spec): scan left to right, replace every leftmost occurrence of the
token (a percent sign followed by t) with repl, preserve every other
character verbatim and in order, and do not rescan the replacement text.
This is the second definition of a refinement pair; substTok below is the
translation of the C loop and is compared against it. -/
def replaceTokSpec (t : Char) (repl : List Char) : List Char → List Char
  | [] => []
  | [c] => [c]
  | a :: b :: rest =>
    if a = '%' ∧ b = t then repl ++ replaceTokSpec t repl rest
    else a :: replaceTokSpec t repl (b :: rest)

theorem replaceTokSpec_of_none (t : Char) (repl : List Char) :
    ∀ p : List Char, splitAtTok t p = none → replaceTokSpec t repl p = p := by
  intro p
  induction p with
  | nil => intro _; rfl
  | cons a tail ih =>
    cases tail with
    | nil => intro _; rfl
    | cons b rest2 =>
      intro h
      simp only [splitAtTok] at h
      by_cases hab : a = '%' ∧ b = t
      · rw [if_pos hab] at h; simp at h
      · rw [if_neg hab] at h
        cases hs : splitAtTok t (b :: rest2) with
        | none =>
          simp only [replaceTokSpec, if_neg hab]
          rw [ih hs]
        | some pr => rw [hs] at h; simp at h

theorem replaceTokSpec_of_some (t : Char) (repl : List Char) :
    ∀ p pre rest : List Char, splitAtTok t p = some (pre, rest) →
      replaceTokSpec t repl p = pre ++ repl ++ replaceTokSpec t repl rest := by
  intro p
  induction p with
  | nil => intro pre rest h; simp [splitAtTok] at h
  | cons a tail ih =>
    cases tail with
    | nil => intro pre rest h; simp [splitAtTok] at h
    | cons b rest2 =>
      intro pre rest h
      simp only [splitAtTok] at h
      by_cases hab : a = '%' ∧ b = t
      · rw [if_pos hab] at h
        have hpr := Option.some.inj h
        have h1 : ([] : List Char) = pre := congrArg Prod.fst hpr
        have h2 : rest2 = rest := congrArg Prod.snd hpr
        subst h1; subst h2
        simp only [replaceTokSpec, if_pos hab, List.nil_append]
      · rw [if_neg hab] at h
        cases hs : splitAtTok t (b :: rest2) with
        | none => rw [hs] at h; simp at h
        | some pr =>
          rw [hs] at h
          simp only [Option.map_some', Option.some.injEq] at h
          have h1 : a :: pr.1 = pre := congrArg Prod.fst h
          have h2 : pr.2 = rest := congrArg Prod.snd h
          subst h1; subst h2
          simp only [replaceTokSpec, if_neg hab]
          rw [ih pr.1 pr.2 (by rw [hs])]
          simp

/-- Translation of the substitution loop shared by fr_fault_setup (token
percent-e replaced by the program name, budget 512, the size of the
panic_action buffer) and fr_fault (token percent-p replaced by the decimal
process id, budget 532, the size of the cmd buffer).  Each iteration the C
code calls snprintf to copy the text before the token plus the replacement
into the remaining space and fails (setup: ConfigError return; fault:
fr_exit_now) when the chunk does not fit (left at most ret); after the last
token it fails when the unprocessed tail would not fit (strlen at least
left) and otherwise strlcpy copies it.  none models the failure return. -/
def substTok (t : Char) (repl : List Char) (p : List Char) (left : Nat) :
    Option (List Char) :=
  match h : splitAtTok t p with
  | none => if left ≤ p.length then none else some p
  | some (pre, rest) =>
    if left ≤ pre.length + repl.length then none
    else
      (substTok t repl rest (left - (pre.length + repl.length))).map
        (fun s => pre ++ repl ++ s)
termination_by p.length
decreasing_by exact splitAtTok_rest_lt t h

theorem substTok_of_lt_aux (t : Char) (repl : List Char) :
    ∀ (n : Nat) (p : List Char) (left : Nat), p.length ≤ n →
      (replaceTokSpec t repl p).length < left →
      substTok t repl p left = some (replaceTokSpec t repl p) := by
  intro n
  induction n using Nat.strong_induction_on with
  | _ n ih =>
    intro p left hn hlt
    rw [substTok]
    split
    next hs =>
      rw [replaceTokSpec_of_none t repl p hs] at hlt
      rw [replaceTokSpec_of_none t repl p hs]
      rw [if_neg (by omega : ¬ left ≤ p.length)]
    next pre rest hs =>
      have hrl := splitAtTok_rest_lt t hs
      rw [replaceTokSpec_of_some t repl p pre rest hs] at hlt
      simp only [List.length_append] at hlt
      rw [if_neg (by omega : ¬ left ≤ pre.length + repl.length)]
      rw [ih rest.length (by omega) rest (left - (pre.length + repl.length))
        (le_refl _) (by omega)]
      rw [replaceTokSpec_of_some t repl p pre rest hs]
      simp [List.append_assoc]

theorem substTok_of_ge_aux (t : Char) (repl : List Char) :
    ∀ (n : Nat) (p : List Char) (left : Nat), p.length ≤ n →
      left ≤ (replaceTokSpec t repl p).length →
      substTok t repl p left = none := by
  intro n
  induction n using Nat.strong_induction_on with
  | _ n ih =>
    intro p left hn hge
    rw [substTok]
    split
    next hs =>
      rw [replaceTokSpec_of_none t repl p hs] at hge
      rw [if_pos hge]
    next pre rest hs =>
      have hrl := splitAtTok_rest_lt t hs
      rw [replaceTokSpec_of_some t repl p pre rest hs] at hge
      simp only [List.length_append] at hge
      by_cases hret : left ≤ pre.length + repl.length
      · rw [if_pos hret]
      · rw [if_neg hret]
        rw [ih rest.length (by omega) rest (left - (pre.length + repl.length))
          (le_refl _) (by omega)]
        rfl

/-- For every template whose fully substituted form fits strictly below the
budget (in C: expansion plus the terminating NUL fits the buffer), the C
substitution loop succeeds and produces exactly the specification-side
replacement: every token occurrence replaced, all other characters
preserved verbatim in order. -/
theorem substTok_of_lt (t : Char) (repl p : List Char) (left : Nat)
    (h : (replaceTokSpec t repl p).length < left) :
    substTok t repl p left = some (replaceTokSpec t repl p) :=
  substTok_of_lt_aux t repl p.length p left (le_refl _) h

/-- For every template whose fully substituted form meets or exceeds the
budget, the C substitution loop fails. -/
theorem substTok_of_ge (t : Char) (repl p : List Char) (left : Nat)
    (h : left ≤ (replaceTokSpec t repl p).length) :
    substTok t repl p left = none :=
  substTok_of_ge_aux t repl p.length p left (le_refl _) h

/-- The characters the C substitution loop actually stores into the
destination buffer, terminating NULs excluded.  On the failing snprintf
iteration the chunk is truncated to left - 1 characters (snprintf writes at
most size - 1 characters plus a NUL) before the loop aborts; on the failing
final length check nothing further is written; otherwise chunks are written
whole and the tail is copied by strlcpy. -/
def substTokWritten (t : Char) (repl : List Char) (p : List Char)
    (left : Nat) : List Char :=
  match h : splitAtTok t p with
  | none => if left ≤ p.length then [] else p
  | some (pre, rest) =>
    if left ≤ pre.length + repl.length then (pre ++ repl).take (left - 1)
    else
      (pre ++ repl) ++
        substTokWritten t repl rest (left - (pre.length + repl.length))
termination_by p.length
decreasing_by exact splitAtTok_rest_lt t h

theorem substTokWritten_lt_aux (t : Char) (repl : List Char) :
    ∀ (n : Nat) (p : List Char) (left : Nat), p.length ≤ n → 1 ≤ left →
      (substTokWritten t repl p left).length < left := by
  intro n
  induction n using Nat.strong_induction_on with
  | _ n ih =>
    intro p left hn h1
    rw [substTokWritten]
    split
    next hs =>
      split
      · simpa using h1
      · simp only [not_le] at *
        omega
    next pre rest hs =>
      have hrl := splitAtTok_rest_lt t hs
      by_cases hret : left ≤ pre.length + repl.length
      · rw [if_pos hret]
        have := List.length_take_le (left - 1) (pre ++ repl)
        omega
      · rw [if_neg hret]
        have hrec := ih rest.length (by omega) rest
          (left - (pre.length + repl.length)) (le_refl _) (by omega)
        simp only [List.length_append]
        omega

/-- No write of the substitution loops ever goes past the destination
buffer: for a buffer of size left (at least one byte), the characters
written occupy strictly fewer than left positions, leaving room for the
terminating NUL inside the buffer on every path, including the aborting
ones. -/
theorem substTokWritten_lt (t : Char) (repl p : List Char) (left : Nat)
    (h : 1 ≤ left) : (substTokWritten t repl p left).length < left :=
  substTokWritten_lt_aux t repl p.length p left (le_refl _) h

/-- World-writable permission bit S_IWOTH (octal 002). -/
def S_IWOTH : Nat := 2

/-- Result of fr_fault_check_permissions: ok (return 0), or the two failure
modes (return -1 with the corresponding fr_strerror_printf message). -/
inductive PermResult
  | ok
  | truncated
  | globallyWritable
deriving DecidableEq

/-- stat-based test of the candidate path: when the path exists (the
filesystem map yields its mode bits) and the mode has the S_IWOTH bit set,
the check fails with the globally-writable error; when the stat fails (path
absent) or the bit is clear, the check passes. -/
def checkPathMode (fs : List Char → Option Nat) (p : List Char) :
    PermResult :=
  match fs p with
  | some mode => if mode &&& S_IWOTH ≠ 0 then .globallyWritable else .ok
  | none => .ok

/-- fr_fault_check_permissions: strchr locates the first space character of
panic_action; when one exists, snprintf copies the text before it into the
256-byte filename buffer and the check fails with the truncated error when
that text is 256 bytes or longer (is_truncated); otherwise the copied text,
or with no space the whole panic_action, is the candidate path handed to
stat. -/
def fr_fault_check_permissions (pa : List Char)
    (fs : List Char → Option Nat) : PermResult :=
  if pa.contains ' ' then
    if 256 ≤ (pa.takeWhile (fun c => c ≠ ' ')).length then .truncated
    else checkPathMode fs (pa.takeWhile (fun c => c ≠ ' '))
  else checkPathMode fs pa

/-- Handlers fr_fault_setup installs on its first successful call. -/
inductive Handler
  | fault
  | memReport
deriving DecidableEq

/-- Signal set wired by fr_fault_setup on first call, with Linux signal
numbers: SIGSEGV (11), SIGBUS (7), SIGABRT (6) and SIGFPE (8) are the
fatal signals, the advisory SIGUSR1 (10) also runs fr_fault (panic
protocol on demand), and the advisory SIGUSR2 (12) runs
_fr_fault_mem_report, the memory-report-only handler. -/
def installedHandlers : List (Int × Handler) :=
  [(11, .fault), (7, .fault), (6, .fault), (8, .fault),
   (10, .fault), (12, .memReport)]

/-- fr_fault_setup: with a non-null cmd, expand every percent-e token to the
program name (empty when program is null) into the 512-byte panic_action
buffer, failing with the ConfigError message when the expansion overflows;
with a null cmd, panic_action becomes empty.  Then run the permission
check, failing when it fails.  On the first successful call (alreadySetup
false) all signal handlers are installed; later calls install nothing. -/
def fr_fault_setup (cmd : Option (List Char)) (program : Option (List Char))
    (fs : List Char → Option Nat) (alreadySetup : Bool) :
    Except String (List Char × List (Int × Handler)) :=
  let handlers := if alreadySetup then [] else installedHandlers
  match cmd with
  | some c =>
    match substTok 'e' (program.getD []) c 512 with
    | none => .error "Panic action too long"
    | some pa =>
      match fr_fault_check_permissions pa fs with
      | .ok => .ok (pa, handlers)
      | .truncated =>
        .error "Failed writing panic_action to temporary buffer (truncated)"
      | .globallyWritable => .error "panic_action file is globally writable"
  | none =>
    match fr_fault_check_permissions [] fs with
    | .ok => .ok ([], handlers)
    | .truncated =>
      .error "Failed writing panic_action to temporary buffer (truncated)"
    | .globallyWritable => .error "panic_action file is globally writable"

/-- fr_get_dumpable_flag as a function of the prctl(PR_GET_DUMPABLE)
return value: negative results become the error value -1, any result other
than exactly 1 is normalized to 0 (Linux sometimes reports 2 for
disabled), and 1 stays 1. -/
def fr_get_dumpable_flag (prctlRet : Int) : Int :=
  if prctlRet < 0 then -1 else if prctlRet ≠ 1 then 0 else 1

/-- Outcome of the panic callback test in fr_fault: the callback fails when
one is registered and returns a negative value for the caught signal. -/
def cbFails (cb : Option (Int → Int)) (sig : Int) : Bool :=
  match cb with
  | some f => if f sig < 0 then true else false
  | none => false

/-- Environment of one fr_fault invocation: the filesystem seen by stat,
the registered panic callback, the decimal digits of getpid used by the
percent-p expansion, the prctl results of the two PR_GET_DUMPABLE reads,
whether the two PR_SET_DUMPABLE calls succeed, and the exit code of the
panic command. -/
structure FaultEnv where
  fs : List Char → Option Nat
  panic_cb : Option (Int → Int)
  pid : List Char
  prctlGet1 : Int
  setTrueOk : Bool
  prctlGet2 : Int
  setFalseOk : Bool
  systemCode : Int

/-- How an fr_fault invocation ends: fr_exit_now with a status, or a
normal return to the interrupted code. -/
inductive FaultOutcome
  | exited (status : Nat)
  | returned
deriving DecidableEq

/-- Observable result of one fr_fault invocation. -/
structure FaultResult where
  /-- how the invocation ended. -/
  outcome : FaultOutcome
  /-- the string passed to system, when execution reached it. -/
  command : Option (List Char)
  /-- the local disable flag: the dumpable flag was originally off and was
  successfully elevated, so it must be reset after the command. -/
  elevated : Bool
  /-- the invocation ended through fr_exit_now before reaching the finish
  label (oversized percent-p expansion, or failure to reset the dumpable
  flag), rather than through the finish label. -/
  fatalBeforeFinish : Bool
deriving DecidableEq

/-- The finish label of fr_fault: return normally when the caught signal is
SIGUSR1 (10), otherwise fr_exit_now(1). -/
def finishResult (sig : Int) (cmd : Option (List Char)) (elev : Bool) :
    FaultResult :=
  { outcome := if sig = 10 then .returned else .exited 1,
    command := cmd, elevated := elev, fatalBeforeFinish := false }

/-- fr_fault: log the caught signal; re-run the permission check and on
failure skip to finish; run the registered callback and on negative result
skip to finish; print the backtrace; with an empty panic_action skip to
finish; expand every percent-p token to the process id into the 532-byte
cmd buffer (sizeof panic_action + 20), calling fr_exit_now(1) on overflow;
when the dumpable flag reads 0, try to elevate it, remembering success in
disable; run system(cmd); if disable is set and resetting the flag fails,
fr_exit_now(1); otherwise fall through to finish. -/
def fr_fault (sig : Int) (pa : List Char) (env : FaultEnv) : FaultResult :=
  if fr_fault_check_permissions pa env.fs ≠ PermResult.ok then
    finishResult sig none false
  else if cbFails env.panic_cb sig then finishResult sig none false
  else if pa = [] then finishResult sig none false
  else
    match substTok 'p' env.pid pa 532 with
    | none =>
      { outcome := .exited 1, command := none, elevated := false,
        fatalBeforeFinish := true }
    | some cmd =>
      let disable : Bool :=
        (fr_get_dumpable_flag env.prctlGet1 == 0) && env.setTrueOk &&
          !(fr_get_dumpable_flag env.prctlGet2 == 0)
      if disable && !env.setFalseOk then
        { outcome := .exited 1, command := some cmd, elevated := true,
          fatalBeforeFinish := true }
      else finishResult sig (some cmd) disable

/-- Process state the core-dump policy manipulates: the RLIMIT_CORE pair
(soft and hard limit) and the PR_DUMPABLE attribute. -/
structure SysState where
  soft : Nat
  hard : Nat
  dumpable : Bool
deriving DecidableEq

/-- Syscalls fr_set_dumpable issues, in order. -/
inductive SysEvent
  | setDumpableFlag (b : Bool)
  | setRlimitCore (soft hard : Nat)
deriving DecidableEq

/-- fr_set_dumpable_init: getrlimit(RLIMIT_CORE) captures the current
soft and hard core limits into the process-wide core_limits baseline. -/
def fr_set_dumpable_init (s : SysState) : Nat × Nat := (s.soft, s.hard)

/-- fr_set_dumpable on the success path (both syscalls succeed): disabling
sets both core limits to zero via setrlimit; enabling first sets the
PR_DUMPABLE attribute true and then restores the captured baseline limits
via setrlimit.  Returns the new state and the ordered syscall trace. -/
def fr_set_dumpable (allow : Bool) (baseline : Nat × Nat) (s : SysState) :
    SysState × List SysEvent :=
  if allow then
    ({ s with dumpable := true, soft := baseline.1, hard := baseline.2 },
     [.setDumpableFlag true, .setRlimitCore baseline.1 baseline.2])
  else
    ({ s with soft := 0, hard := 0 }, [.setRlimitCore 0 0])

/-- Result of fr_log_talloc_report.  The reports list holds the contexts a
talloc_report_full call was issued for, in order; none stands for the
allocator root (the NULL context).  closedDup records whether the
duplicated log descriptor or its stream was closed before returning. -/
inductive ReportResult
  | dupFailed
  | fdopenFailed (closedDup : Bool)
  | ok (reports : List (Option Nat)) (closedDup : Bool)
deriving DecidableEq

/-- The do-while walk of fr_log_talloc_report: report the current context,
then follow talloc_parent as long as the parent exists (the ancestor list,
the chain of successive talloc parents with the NULL end dropped, is not
exhausted) and the parent's talloc name is not the name of the NULL root
context.  The allocator collaborator is abstracted by the ancestor chain
and the isNullName test. -/
def walkReports (isNullName : Nat → Bool) : Nat → List Nat → List Nat
  | ctx, [] => [ctx]
  | ctx, par :: rest =>
    ctx :: (if isNullName par then [] else walkReports isNullName par rest)

/-- fr_log_talloc_report: dup the log descriptor, returning the syscall
error when dup fails; fdopen the copy, closing the copy and returning the
syscall error when fdopen fails; with a null context issue one full report
at the root, otherwise walk the context's parent chain; fclose the stream
at the end. -/
def fr_log_talloc_report (dupOk fdopenOk : Bool)
    (ctx : Option (Nat × List Nat)) (isNullName : Nat → Bool) :
    ReportResult :=
  if !dupOk then .dupFailed
  else if !fdopenOk then .fdopenFailed true
  else
    match ctx with
    | none => .ok [none] true
    | some (c, ancestors) =>
      .ok ((walkReports isNullName c ancestors).map some) true

/-- A record of the backtrace registry (fr_bt_info_t): the address of the
record chunk itself, the obj field (declared as the address of the tracked
block of allocated memory), and the captured frame addresses. -/
structure BtInfo where
  addr : Nat
  obj : Nat
  frames : List Nat
deriving DecidableEq

/-- A backtrace marker (fr_bt_marker): the address of the tracked parent
object, the needle for searching the circular buffer. -/
structure BtMarker where
  obj : Nat
deriving DecidableEq

/-- The marker's teardown hook _fr_do_bt: talloc_zero allocates the record
with every field zeroed (so its obj field is 0, the null pointer - the
code never assigns marker->obj to it), backtrace fills the frames, and
fr_cbuff_rp_insert appends the record to the circular buffer.  Modelled
from the spec: fr_cbuff (not part of the sources here) is a bounded FIFO
buffer; the bounded eviction is irrelevant to the claims and the buffer is
kept as the list of live records in buffer order, oldest first. -/
def fr_do_bt (marker : BtMarker) (recordAddr : Nat) (captured : List Nat)
    (cbuff : List BtInfo) : List BtInfo :=
  let _ := marker
  cbuff ++ [{ addr := recordAddr, obj := 0, frames := captured }]

/-- What backtrace_print writes: the stacktrace headers it prints, each the
address of the record chunk p (the code prints p itself) with its frames,
and whether the no-backtrace-available message was printed (found stayed
false). -/
structure PrintOutput where
  printed : List (Nat × List Nat)
  noBacktrace : Bool
deriving DecidableEq

/-- The scan loop of backtrace_print over the records of the buffer, in
buffer order (fr_cbuff_rp_next; modelled from the spec for the buffer
iteration order).  The C condition is (p == obj) || !obj: the record
pointer p itself is compared with obj.  With a non-null obj the loop
returns right after the first record whose own address equals obj; with a
null obj every record is printed. -/
def backtrace_print_loop (obj : Option Nat) :
    List BtInfo → List (Nat × List Nat)
  | [] => []
  | p :: rest =>
    match obj with
    | some o =>
      if p.addr = o then [(p.addr, p.frames)]
      else backtrace_print_loop (some o) rest
    | none => (p.addr, p.frames) :: backtrace_print_loop none rest

/-- backtrace_print: run the scan loop; when nothing was printed, found is
still false and the no-backtrace-available message is emitted. -/
def backtrace_print (cbuff : List BtInfo) (obj : Option Nat) :
    PrintOutput :=
  { printed := backtrace_print_loop obj cbuff,
    noBacktrace := (backtrace_print_loop obj cbuff).isEmpty }

/-- Observable effects of one fr_debug_break call: the value of the
process-wide fr_debugger_present variable afterwards, whether SIGTRAP was
raised, and whether the temporary _sigtrap_handler ran (it runs only when
no debugger intercepts the trap; it assigns 0 and restores the default
disposition). -/
structure DebugBreakResult where
  state : Int
  raised : Bool
  handlerRan : Bool
deriving DecidableEq

/-- fr_debug_break as a step function of the current fr_debugger_present
value (-1 unknown, 0 absent, 1 present) and of whether a debugger
intercepts SIGTRAP.  In the unknown state the code assigns 0 to
fr_debugger_present, installs _sigtrap_handler and raises SIGTRAP - the
assignment happens before the raise, so the state is 0 afterwards whether
or not the handler ran; in the present state it re-raises SIGTRAP; in the
absent state it does nothing. -/
def fr_debug_break (present : Int) (debuggerIntercepts : Bool) :
    DebugBreakResult :=
  if present = -1 then
    { state := 0, raised := true, handlerRan := !debuggerIntercepts }
  else if present = 1 then
    { state := 1, raised := true, handlerRan := false }
  else
    { state := present, raised := false, handlerRan := false }

/-- The C isspace set for the ASCII range: space, horizontal tab, newline,
vertical tab, form feed, carriage return. -/
def isCWhitespace (c : Char) : Bool :=
  c == ' ' || c == '\t' || c == '\n' || c == '\x0b' || c == '\x0c' ||
    c == '\r'

/-- The leading whitespace-delimited token of a command string, following
the words of the spec (the candidate executable path of section 4.1.1):
the maximal prefix free of C whitespace. -/
def wsToken (pa : List Char) : List Char :=
  pa.takeWhile (fun c => !isCWhitespace c)

/-- The leading space-delimited token: the text before the first space
character when one occurs, the whole string otherwise.  This is what the
code actually extracts (strchr with a space); stated for the amended
claim about fr_fault_check_permissions. -/
def spaceToken (pa : List Char) : List Char :=
  if pa.contains ' ' then pa.takeWhile (fun c => c ≠ ' ') else pa

theorem walkReports_eq_takeWhile (isN : Nat → Bool) :
    ∀ (c : Nat) (anc : List Nat),
      walkReports isN c anc = c :: anc.takeWhile (fun a => !isN a) := by
  intro c anc
  induction anc generalizing c with
  | nil => simp [walkReports]
  | cons par rest ih =>
    simp only [walkReports, List.takeWhile_cons]
    by_cases hp : isN par
    · simp [hp]
    · simp [hp, ih par]

theorem finishResult_spec (sig : Int) (c : Option (List Char)) (e : Bool) :
    ((finishResult sig c e).outcome = .returned ↔
      (sig = 10 ∧ (finishResult sig c e).fatalBeforeFinish = false)) ∧
    ((finishResult sig c e).outcome = .returned ∨
      (finishResult sig c e).outcome = .exited 1) := by
  unfold finishResult
  by_cases h : sig = 10 <;> simp [h]

/-- C6 (confirmed): with the baseline captured by fr_set_dumpable_init,
disabling then re-enabling core dumps leaves the core-limit pair equal to
the captured baseline; disabling sets both the soft and the hard limit to
zero; and enabling issues the set-dumpable-attribute syscall before the
setrlimit call that restores the baseline limits. -/
theorem set_dumpable_roundtrip_restores_baseline (s0 : SysState) :
    ((fr_set_dumpable true (fr_set_dumpable_init s0)
        (fr_set_dumpable false (fr_set_dumpable_init s0) s0).1).1.soft
      = s0.soft ∧
     (fr_set_dumpable true (fr_set_dumpable_init s0)
        (fr_set_dumpable false (fr_set_dumpable_init s0) s0).1).1.hard
      = s0.hard) ∧
    ((fr_set_dumpable false (fr_set_dumpable_init s0) s0).1.soft = 0 ∧
     (fr_set_dumpable false (fr_set_dumpable_init s0) s0).1.hard = 0) ∧
    ((fr_set_dumpable true (fr_set_dumpable_init s0)
        (fr_set_dumpable false (fr_set_dumpable_init s0) s0).1).2 =
      [SysEvent.setDumpableFlag true,
       SysEvent.setRlimitCore s0.soft s0.hard]) := by
  simp [fr_set_dumpable, fr_set_dumpable_init]

/-- C9 counterexample: on the first fr_debug_break call with a debugger
intercepting the trap (so the temporary handler never runs), the probe
state still becomes 0 (absent), because fr_debug_break assigns 0 directly
before raising SIGTRAP - refuting the claim that the state becomes absent
only via the trap-handler side effect and not when a debugger intercepts. -/
theorem debug_break_absent_despite_debugger :
    (fr_debug_break (-1) true).state = 0 ∧
    (fr_debug_break (-1) true).handlerRan = false := by
  decide

/-- C9 (amended): from the unknown state (-1) the first fr_debug_break call
raises the trap and moves the state to absent (0) regardless of whether a
debugger intercepts - the assignment precedes the raise, and the temporary
handler, which runs exactly when no debugger intercepts, redundantly
assigns 0; from the present state (1) every call re-raises the trap; from
the absent state the call is a no-op. -/
theorem debug_break_state_machine (i : Bool) :
    fr_debug_break (-1) i =
      { state := 0, raised := true, handlerRan := !i } ∧
    fr_debug_break 1 i =
      { state := 1, raised := true, handlerRan := false } ∧
    fr_debug_break 0 i =
      { state := 0, raised := false, handlerRan := false } := by
  cases i <;> exact ⟨rfl, rfl, rfl⟩

/-- Scenario for the C2 code bug: a marker attached to the object at
address 5 fires its teardown hook, which inserts a record chunk allocated
at address 100 capturing frames 7, 8, 9. -/
def c2_cbuff : List BtInfo := fr_do_bt { obj := 5 } 100 [7, 8, 9] []

/-- C2 (code bug): after the teardown hook inserts a record for the object
at address 5, backtrace_print for that object address prints nothing and
reports no backtrace available, because _fr_do_bt never stores the
marker's object address in the record (talloc_zero leaves the obj field
null and it is never assigned) and the scan compares the record pointer p
itself with obj instead of comparing the recorded object identity.  The
record is live (first conjunct) and printing with no object does visit it
in buffer order (last conjunct). -/
theorem backtrace_print_lookup_never_matches :
    c2_cbuff = [{ addr := 100, obj := 0, frames := [7, 8, 9] }] ∧
    (backtrace_print c2_cbuff (some 5)).noBacktrace = true ∧
    (backtrace_print c2_cbuff (some 5)).printed = [] ∧
    (backtrace_print c2_cbuff none).printed = [(100, [7, 8, 9])] := by
  decide

/-- C8 (confirmed): fr_log_talloc_report fails when duplicating the log
descriptor fails; with a non-null context it issues a report at that
context and then at each successive talloc parent, stopping just before a
parent carrying the NULL root context's name; and on every exit path after
a successful duplication the duplicated descriptor or its stream is
closed. -/
theorem fr_log_talloc_report_behavior :
    (∀ (fdok : Bool) (ctx : Option (Nat × List Nat)) (isN : Nat → Bool),
       fr_log_talloc_report false fdok ctx isN = .dupFailed) ∧
    (∀ (c : Nat) (anc : List Nat) (isN : Nat → Bool),
       fr_log_talloc_report true true (some (c, anc)) isN =
         .ok ((c :: anc.takeWhile (fun a => !isN a)).map some) true) ∧
    (∀ (fdok : Bool) (ctx : Option (Nat × List Nat)) (isN : Nat → Bool),
       fr_log_talloc_report true fdok ctx isN = .fdopenFailed true ∨
       ∃ l, fr_log_talloc_report true fdok ctx isN = .ok l true) := by
  refine ⟨fun fdok ctx isN => rfl, ?_, ?_⟩
  · intro c anc isN
    simp [fr_log_talloc_report, walkReports_eq_takeWhile]
  · intro fdok ctx isN
    cases fdok with
    | false => left; rfl
    | true =>
      right
      cases ctx with
      | none => exact ⟨[none], rfl⟩
      | some p =>
        obtain ⟨c, anc⟩ := p
        exact ⟨_, rfl⟩

/-- Environment for concrete fr_fault runs: empty filesystem, no callback,
dumpable already enabled, every syscall succeeding. -/
def env0 : FaultEnv :=
  { fs := fun _ => none, panic_cb := none, pid := [], prctlGet1 := 1,
    setTrueOk := true, prctlGet2 := 1, setFalseOk := true, systemCode := 0 }

/-- C1 counterexample: the dump-memory-report advisory signal is SIGUSR2
(12) - fr_fault_setup installs the memory-report-only handler on it - yet
fr_fault invoked with signal 12 runs the panic protocol to the finish
label and terminates the process with status 1 instead of returning,
while fr_fault invoked with SIGUSR1 (10), the advisory that triggers the
panic protocol on demand, is the one that returns normally. -/
theorem fr_fault_memreport_signal_terminates :
    (12, Handler.memReport) ∈ installedHandlers ∧
    (fr_fault 12 [] env0).outcome = .exited 1 ∧
    (fr_fault 12 [] env0).fatalBeforeFinish = false ∧
    (fr_fault 10 [] env0).outcome = .returned := by
  decide

/-- C1 (amended): fr_fault, after running the panic protocol, returns
normally exactly when the caught signal is SIGUSR1 (10), the advisory
that triggers the panic protocol on demand, and the run did not already
terminate through a fatal early exit (oversized percent-p expansion or a
failed dumpable-flag reset); for every other signal - the fatal signals
and the memory-report advisory SIGUSR2 included - it terminates the
process with the nonzero status 1. -/
theorem fr_fault_return_iff_sigusr1 (sig : Int) (pa : List Char)
    (env : FaultEnv) :
    ((fr_fault sig pa env).outcome = .returned ↔
      (sig = 10 ∧ (fr_fault sig pa env).fatalBeforeFinish = false)) ∧
    ((fr_fault sig pa env).outcome = .returned ∨
      (fr_fault sig pa env).outcome = .exited 1) := by
  unfold fr_fault
  split
  · exact finishResult_spec sig none false
  split
  · exact finishResult_spec sig none false
  split
  · exact finishResult_spec sig none false
  split
  · simp
  · dsimp only
    split
    · simp
    · exact finishResult_spec sig _ _

/-- C3 (confirmed): for every command template whose expansion fits the
512-byte panic_action buffer (and passes the permission check, so setup
succeeds), fr_fault_setup compiles exactly one command string, equal to
the template with every occurrence of the percent-e program-name token
replaced by the program name and with every non-token character preserved
verbatim, in order (replaceTokSpec). -/
theorem fr_fault_setup_substitutes_program_token
    (cmd program : List Char) (fs : List Char → Option Nat) (st : Bool)
    (hfit : (replaceTokSpec 'e' program cmd).length < 512)
    (hperm : fr_fault_check_permissions (replaceTokSpec 'e' program cmd) fs
      = .ok) :
    fr_fault_setup (some cmd) (some program) fs st =
      .ok (replaceTokSpec 'e' program cmd,
           if st then [] else installedHandlers) := by
  simp [fr_fault_setup, substTok_of_lt 'e' program cmd 512 hfit, hperm]

theorem fr_fault_setup_substitutes_program_token_witness :
    fr_fault_setup (some ['g', 'd', 'b', ' ', '%', 'e'])
        (some ['r', 'a', 'd']) (fun _ => none) false =
      .ok (replaceTokSpec 'e' ['r', 'a', 'd'] ['g', 'd', 'b', ' ', '%', 'e'],
           installedHandlers) := by
  have h := fr_fault_setup_substitutes_program_token
    ['g', 'd', 'b', ' ', '%', 'e'] ['r', 'a', 'd'] (fun _ => none) false
    (by decide) (by decide)
  simpa using h

/-- C4 (confirmed): when the token expansion exceeds the fixed buffer, the
percent-e loop in fr_fault_setup fails with the ConfigError message
(the compiled command meeting or exceeding the 512-byte panic_action
capacity), the percent-p loop in fr_fault exits fatally through
fr_exit_now before any command runs (expansion meeting or exceeding the
532-byte cmd capacity), and in all cases the characters the loops store
stay strictly inside a destination buffer of any positive size. -/
theorem panic_action_overflow_safe :
    (∀ (cmd program : List Char) (fs : List Char → Option Nat) (st : Bool),
        512 ≤ (replaceTokSpec 'e' program cmd).length →
        fr_fault_setup (some cmd) (some program) fs st =
          .error "Panic action too long") ∧
    (∀ (sig : Int) (pa : List Char) (env : FaultEnv),
        532 ≤ (replaceTokSpec 'p' env.pid pa).length →
        fr_fault_check_permissions pa env.fs = .ok →
        cbFails env.panic_cb sig = false → pa ≠ [] →
        fr_fault sig pa env =
          { outcome := .exited 1, command := none, elevated := false,
            fatalBeforeFinish := true }) ∧
    (∀ (t : Char) (repl p : List Char) (left : Nat), 1 ≤ left →
        (substTokWritten t repl p left).length < left) := by
  refine ⟨?_, ?_, fun t repl p left h => substTokWritten_lt t repl p left h⟩
  · intro cmd program fs st hov
    simp [fr_fault_setup, substTok_of_ge 'e' program cmd 512 hov]
  · intro sig pa env hov hperm hcb hpa
    unfold fr_fault
    simp [hperm, hcb, hpa, substTok_of_ge 'p' env.pid pa 532 hov]

/-- An oversized panic action: 540 bytes, no substitution tokens. -/
def paLong : List Char := List.replicate 540 'a'

/-- Environment for the oversized percent-p expansion run. -/
def envLong : FaultEnv :=
  { fs := fun _ => none, panic_cb := none, pid := [], prctlGet1 := 1,
    setTrueOk := true, prctlGet2 := 1, setFalseOk := true, systemCode := 0 }

set_option maxRecDepth 4000 in
theorem panic_action_overflow_safe_witness :
    fr_fault_setup (some paLong) (some []) (fun _ => none) false =
      .error "Panic action too long" ∧
    fr_fault 11 paLong envLong =
      { outcome := .exited 1, command := none, elevated := false,
        fatalBeforeFinish := true } ∧
    (substTokWritten 'p' [] paLong 532).length < 532 := by
  refine ⟨panic_action_overflow_safe.1 paLong [] (fun _ => none) false ?_,
    panic_action_overflow_safe.2.1 11 paLong envLong ?_ ?_ ?_ ?_,
    panic_action_overflow_safe.2.2 'p' [] paLong 532 ?_⟩
  · decide
  · decide
  · decide
  · rfl
  · decide
  · decide

/-- C7 (confirmed): in a run of fr_fault that reaches the panic command,
when the dumpable flag originally read disabled and the elevation
succeeded (so the local disable flag was set), a failure of the
PR_SET_DUMPABLE reset after the command makes fr_fault exit immediately
with status 1; when the elevation itself failed, the failure is only
logged, disable stays false, and execution continues to the normal finish
regardless of any later set call. -/
theorem fr_fault_dumpable_restore_policy (sig : Int) (pa : List Char)
    (env : FaultEnv) (cmd : List Char)
    (hperm : fr_fault_check_permissions pa env.fs = .ok)
    (hcb : cbFails env.panic_cb sig = false)
    (hpa : pa ≠ [])
    (hexp : substTok 'p' env.pid pa 532 = some cmd) :
    ((fr_get_dumpable_flag env.prctlGet1 = 0 ∧ env.setTrueOk = true ∧
        fr_get_dumpable_flag env.prctlGet2 ≠ 0 ∧ env.setFalseOk = false) →
      fr_fault sig pa env =
        { outcome := .exited 1, command := some cmd, elevated := true,
          fatalBeforeFinish := true }) ∧
    ((fr_get_dumpable_flag env.prctlGet1 = 0 ∧
        ¬(env.setTrueOk = true ∧ fr_get_dumpable_flag env.prctlGet2 ≠ 0)) →
      fr_fault sig pa env = finishResult sig (some cmd) false) := by
  unfold fr_fault
  constructor
  · rintro ⟨h1, h2, h3, h4⟩
    simp [hperm, hcb, hpa, hexp, h1, h2, h3, h4]
  · rintro ⟨h1, h2⟩
    rcases not_and_or.mp h2 with h2 | h2
    · have hst : env.setTrueOk = false := by
        cases hx : env.setTrueOk
        · rfl
        · exact absurd hx h2
      simp [hperm, hcb, hpa, hexp, h1, hst]
    · have hg2 : fr_get_dumpable_flag env.prctlGet2 = 0 := not_not.mp h2
      simp [hperm, hcb, hpa, hexp, h1, hg2]

/-- Environment for the restore-failure run: dumpable initially disabled,
elevation succeeds, the reset fails. -/
def envC7 : FaultEnv :=
  { fs := fun _ => none, panic_cb := none, pid := ['1'], prctlGet1 := 0,
    setTrueOk := true, prctlGet2 := 1, setFalseOk := false,
    systemCode := 0 }

theorem fr_fault_dumpable_restore_policy_witness :
    fr_fault 11 ['g', 'd', 'b'] envC7 =
      { outcome := .exited 1, command := some ['g', 'd', 'b'],
        elevated := true, fatalBeforeFinish := true } := by
  have h1 : replaceTokSpec 'p' envC7.pid ['g', 'd', 'b'] = ['g', 'd', 'b'] := by
    decide
  have hexp : substTok 'p' envC7.pid ['g', 'd', 'b'] 532 =
      some ['g', 'd', 'b'] := by
    have h2 := substTok_of_lt 'p' envC7.pid ['g', 'd', 'b'] 532
      (by rw [h1]; decide)
    rw [h1] at h2
    exact h2
  exact (fr_fault_dumpable_restore_policy 11 ['g', 'd', 'b'] envC7
    ['g', 'd', 'b'] (by decide) rfl (by decide) hexp).1
    ⟨by decide, rfl, by decide, rfl⟩

/-- The panic action of the C5 counterexample: a tab after the first
character and no space anywhere. -/
def paTab : List Char := ['g', '\t', 'x']

/-- Filesystem of the C5 counterexample: only the path g exists, and it is
world writable. -/
def fsTab : List Char → Option Nat :=
  fun p => if p = ['g'] then some 2 else none

/-- C5 counterexample: for the configured string g-tab-x, the leading
whitespace-delimited token is g, which exists and is world writable, so
the claim demands rejection; but the code splits only at a space
character (strchr with a space), finds none, stats the whole string
g-tab-x, which does not exist, and accepts. -/
theorem check_permissions_tab_token_counterexample :
    wsToken paTab = ['g'] ∧
    fsTab (wsToken paTab) = some 2 ∧
    2 &&& S_IWOTH ≠ 0 ∧
    fr_fault_check_permissions paTab fsTab = .ok := by
  decide

/-- C5 (amended): the candidate executable path is the leading
space-delimited token - the text before the first space character when
one occurs, the whole string otherwise.  Provided that token fits the
256-byte filename buffer: when it exists with the world-writable bit set
the check rejects, when it exists with the bit clear the check accepts,
and when it does not exist the check accepts (fails open). -/
theorem check_permissions_space_token_cases (pa : List Char)
    (fs : List Char → Option Nat)
    (hlen : (spaceToken pa).length < 256) :
    (∀ m : Nat, fs (spaceToken pa) = some m → m &&& S_IWOTH ≠ 0 →
       fr_fault_check_permissions pa fs = .globallyWritable) ∧
    (∀ m : Nat, fs (spaceToken pa) = some m → m &&& S_IWOTH = 0 →
       fr_fault_check_permissions pa fs = .ok) ∧
    (fs (spaceToken pa) = none → fr_fault_check_permissions pa fs = .ok) := by
  by_cases hc : pa.contains ' '
  · have hmem : ' ' ∈ pa := by simpa using hc
    have hsp : spaceToken pa = pa.takeWhile (fun c => c ≠ ' ') := by
      unfold spaceToken
      rw [if_pos hc]
    rw [hsp] at hlen
    simp only [ne_eq, decide_not] at hlen
    refine ⟨?_, ?_, ?_⟩
    · intro m hm hw
      rw [hsp] at hm
      simp only [ne_eq, decide_not] at hm
      simp [fr_fault_check_permissions, checkPathMode, hc, hmem, hm, hw,
        Nat.not_le.mpr hlen]
    · intro m hm hw
      rw [hsp] at hm
      simp only [ne_eq, decide_not] at hm
      simp [fr_fault_check_permissions, checkPathMode, hc, hmem, hm, hw,
        Nat.not_le.mpr hlen]
    · intro hm
      rw [hsp] at hm
      simp only [ne_eq, decide_not] at hm
      simp [fr_fault_check_permissions, checkPathMode, hc, hmem, hm,
        Nat.not_le.mpr hlen]
  · have hmem : ' ' ∉ pa := by simpa using hc
    have hsp : spaceToken pa = pa := by
      unfold spaceToken
      rw [if_neg hc]
    refine ⟨?_, ?_, ?_⟩
    · intro m hm hw
      rw [hsp] at hm
      simp [fr_fault_check_permissions, checkPathMode, hc, hmem, hm, hw]
    · intro m hm hw
      rw [hsp] at hm
      simp [fr_fault_check_permissions, checkPathMode, hc, hmem, hm, hw]
    · intro hm
      rw [hsp] at hm
      simp [fr_fault_check_permissions, checkPathMode, hc, hmem, hm]

/-- Filesystem of the C5 witness: only the path gdb exists, world
writable. -/
def fsWW : List Char → Option Nat :=
  fun p => if p = ['g', 'd', 'b'] then some 2 else none

theorem check_permissions_space_token_cases_witness :
    fr_fault_check_permissions ['g', 'd', 'b', ' ', '-', 'p'] fsWW =
      .globallyWritable :=
  (check_permissions_space_token_cases ['g', 'd', 'b', ' ', '-', 'p'] fsWW
    (by decide)).1 2 (by decide) (by decide)

theorem takeWhile_length_le_of_imp {α : Type} (p q : α → Bool)
    (hpq : ∀ c, p c = true → q c = true) :
    ∀ l : List α, (l.takeWhile p).length ≤ (l.takeWhile q).length := by
  intro l
  induction l with
  | nil => simp
  | cons a l ih =>
    cases hp : p a with
    | false => simp [List.takeWhile_cons, hp]
    | true =>
      simp [List.takeWhile_cons, hp, hpq a hp]
      omega

/-- C10 (confirmed): when the configured panic action contains a space and
its leading whitespace-delimited token is 256 bytes or longer (so the text
before the first space is, too), the permission check fails with the
truncated error for every filesystem, because the candidate path is
copied into the fixed 256-byte filename buffer; consequently
fr_fault_setup rejects any template compiling to that panic action even
though it fits the 512-byte panic_action buffer, and fr_fault skips the
panic command entirely. -/
theorem check_permissions_long_token_truncated (pa : List Char) (sig : Int)
    (env : FaultEnv) (fs : List Char → Option Nat)
    (hsp : pa.contains ' ' = true)
    (hlen : 256 ≤ (wsToken pa).length) :
    fr_fault_check_permissions pa fs = .truncated ∧
    (∀ (cmd program : List Char) (st : Bool),
       substTok 'e' program cmd 512 = some pa →
       fr_fault_setup (some cmd) (some program) fs st =
         .error "Failed writing panic_action to temporary buffer (truncated)") ∧
    (fr_fault sig pa env).command = none := by
  have himp : ∀ c : Char, (!isCWhitespace c) = true →
      (fun c => decide (c ≠ ' ')) c = true := by
    intro c hcw
    simp only [decide_eq_true_eq]
    intro hceq
    subst hceq
    simp [isCWhitespace] at hcw
  have hmono := takeWhile_length_le_of_imp (fun c => !isCWhitespace c)
    (fun c => decide (c ≠ ' ')) himp pa
  have htok : 256 ≤ (pa.takeWhile (fun c => c ≠ ' ')).length := by
    unfold wsToken at hlen
    omega
  have key : ∀ f : List Char → Option Nat,
      fr_fault_check_permissions pa f = .truncated := by
    intro f
    unfold fr_fault_check_permissions
    rw [if_pos hsp, if_pos htok]
  refine ⟨key fs, ?_, ?_⟩
  · intro cmd program st hexp
    simp [fr_fault_setup, hexp, key fs]
  · unfold fr_fault
    rw [if_pos (by simp [key env.fs])]
    rfl

/-- The panic action of the C10 witness: a 256-byte leading token followed
by a space and one argument; 258 bytes in all, fitting the 512-byte
panic_action buffer. -/
def paTrunc : List Char := List.replicate 256 'a' ++ [' ', 'x']

/-- Environment for the C10 witness run. -/
def envTrunc : FaultEnv :=
  { fs := fun _ => none, panic_cb := none, pid := [], prctlGet1 := 1,
    setTrueOk := true, prctlGet2 := 1, setFalseOk := true, systemCode := 0 }

set_option maxRecDepth 4000 in
theorem check_permissions_long_token_truncated_witness :
    fr_fault_check_permissions paTrunc (fun _ => none) = .truncated ∧
    fr_fault_setup (some paTrunc) (some []) (fun _ => none) false =
      .error "Failed writing panic_action to temporary buffer (truncated)" ∧
    (fr_fault 11 paTrunc envTrunc).command = none := by
  have h := check_permissions_long_token_truncated paTrunc 11 envTrunc
    (fun _ => none) (by decide) (by decide)
  refine ⟨h.1, ?_, h.2.2⟩
  have h1 : replaceTokSpec 'e' [] paTrunc = paTrunc := by decide
  have hexp : substTok 'e' [] paTrunc 512 = some paTrunc := by
    have h2 := substTok_of_lt 'e' [] paTrunc 512 (by rw [h1]; decide)
    rw [h1] at h2
    exact h2
  exact h.2.1 paTrunc [] false hexp
